import Mathlib

/-!
Shallow embedding of the invoice-generation subsystem of `src/app.py`
(a Flask CRM backend).  Python `Decimal` values are modelled as `ℚ`
(every finite `Decimal` is a rational and the operations used here —
addition, subtraction, comparison — are exact); database `DECIMAL(10,2)`
columns are modelled as integer numbers of cents where noted.  Machine
strings are Lean `String`s.
-/

namespace Servicemate

/-! ## Decimal digit formatting (models CPython `%`-style zero padding) -/

/-- The ten ASCII decimal digit characters. -/
def digitCharList : List Char := ['0', '1', '2', '3', '4', '5', '6', '7', '8', '9']

/-- Digit character for a value `0 ≤ d ≤ 9` (out-of-range defaults to `0`,
which never occurs at call sites). -/
def digitChar (d : Nat) : Char := digitCharList.getD d '0'

/-- Worker for `natDigits`; the fuel argument only forces structural
recursion and is always sufficient at the call site. -/
def natDigitsGo : Nat → Nat → List Char
  | 0, _ => []
  | fuel + 1, n =>
      if n < 10 then [digitChar n]
      else natDigitsGo fuel (n / 10) ++ [digitChar (n % 10)]

/-- Decimal digit string of a natural number, most significant digit first
(models the digits produced by CPython `str`/`%d` formatting). -/
def natDigits (n : Nat) : List Char := natDigitsGo (n + 1) n

/-- Zero-padded fixed-minimum-width decimal formatting: models CPython
`"%04d" % n` / `strftime` zero padding (pads with leading zeros up to the
width, longer numbers are kept whole). -/
def fmtNat (w n : Nat) : String :=
  String.mk (List.replicate (w - (natDigits n).length) '0' ++ natDigits n)

theorem digitChar_mem (d : Nat) : digitChar d ∈ digitCharList := by
  by_cases h : d < digitCharList.length
  · rw [digitChar, List.getD_eq_getElem _ _ h]
    exact List.getElem_mem _
  · rw [digitChar, List.getD_eq_default _ _ (by omega)]
    decide

theorem natDigitsGo_irrel : ∀ f1 f2 n, n < f1 → n < f2 →
    natDigitsGo f1 n = natDigitsGo f2 n := by
  intro f1
  induction f1 with
  | zero => intro f2 n h1; omega
  | succ g1 ih =>
    intro f2 n h1 h2
    match f2, h2 with
    | g2 + 1, _ =>
      show (if n < 10 then [digitChar n] else natDigitsGo g1 (n / 10) ++ [digitChar (n % 10)])
        = (if n < 10 then [digitChar n] else natDigitsGo g2 (n / 10) ++ [digitChar (n % 10)])
      split
      · rfl
      · rename_i hn
        have hd : n / 10 < n := Nat.div_lt_self (by omega) (by omega)
        rw [ih g2 (n / 10) (by omega) (by omega)]

theorem natDigits_unfold (n : Nat) :
    natDigits n = if n < 10 then [digitChar n]
      else natDigits (n / 10) ++ [digitChar (n % 10)] := by
  show (if n < 10 then [digitChar n] else natDigitsGo n (n / 10) ++ [digitChar (n % 10)]) = _
  split
  · rfl
  · rename_i hn
    have hd : n / 10 < n := Nat.div_lt_self (by omega) (by omega)
    rw [natDigitsGo_irrel n (n / 10 + 1) (n / 10) (by omega) (by omega)]
    rfl

theorem natDigits_mem (n : Nat) : ∀ c ∈ natDigits n, c ∈ digitCharList := by
  induction n using Nat.strong_induction_on with
  | _ n ih =>
    intro c hc
    rw [natDigits_unfold] at hc
    split at hc
    · simp only [List.mem_singleton] at hc
      exact hc ▸ digitChar_mem n
    · rename_i h
      rw [List.mem_append] at hc
      rcases hc with hc | hc
      · exact ih (n / 10) (Nat.div_lt_self (by omega) (by omega)) c hc
      · simp only [List.mem_singleton] at hc
        exact hc ▸ digitChar_mem (n % 10)

theorem natDigits_ne_nil (n : Nat) : natDigits n ≠ [] := by
  rw [natDigits_unfold]
  split
  · simp
  · simp

theorem natDigits_length_le (k n : Nat) (hk : 1 ≤ k) (h : n < 10 ^ k) :
    (natDigits n).length ≤ k := by
  induction n using Nat.strong_induction_on generalizing k with
  | _ n ih =>
    rw [natDigits_unfold]
    split
    · simpa using hk
    · rename_i hn
      have hk2 : 2 ≤ k := by
        by_contra hcon
        have hk1 : k = 1 := by omega
        subst hk1
        rw [pow_one] at h
        exact absurd h (by assumption)
      have hdiv : n / 10 < 10 ^ (k - 1) := by
        have h10 : (10 : Nat) ^ k = 10 ^ (k - 1) * 10 := by
          conv_lhs => rw [show k = (k - 1) + 1 by omega]
          ring
        omega
      have := ih (n / 10) (Nat.div_lt_self (by omega) (by omega)) (k - 1) (by omega) hdiv
      simp only [List.length_append, List.length_singleton]
      omega

/-! ## Invoice pricing engine — `create_invoice`, src/app.py lines 1305–1319.

```python
setup_discount_input = payload.get("setup_discount")
setup_discount = as_decimal(setup_discount_input if setup_discount_input is not None else 0)
if setup_discount < 0:
    setup_discount = Decimal("0")
setup_fee_amount = DEFAULT_SETUP_FEE
if setup_discount > setup_fee_amount:
    setup_discount = setup_fee_amount
setup_fee_net = setup_fee_amount - setup_discount
plan_price = as_decimal(plan["price"])
subtotal = plan_price + setup_fee_net
tax = Decimal("0")
total = subtotal
```
-/

structure InvoicePricing where
  setup_fee_amount : ℚ
  setup_fee_discount : ℚ
  setup_fee_net : ℚ
  subtotal : ℚ
  tax : ℚ
  total : ℚ
deriving DecidableEq

/-- Pricing computation of `create_invoice` (src/app.py lines 1305–1319);
`setup_discount_input` is the optional request-payload discount,
`setup_fee_amount` is `DEFAULT_SETUP_FEE`. -/
def create_invoice_pricing (plan_price setup_fee_amount : ℚ)
    (setup_discount_input : Option ℚ) : InvoicePricing :=
  let d0 := setup_discount_input.getD 0
  let d1 := if d0 < 0 then 0 else d0
  let d2 := if d1 > setup_fee_amount then setup_fee_amount else d1
  let net := setup_fee_amount - d2
  let sub := plan_price + net
  { setup_fee_amount := setup_fee_amount
    setup_fee_discount := d2
    setup_fee_net := net
    subtotal := sub
    tax := 0
    total := sub }

/-- C1: invoice creation applies the requested discount clamped first to be
non-negative and then to at most the setup fee amount; the net setup fee is
the fee minus the applied discount and is never negative; the subtotal is
the plan price plus the net setup fee, the tax is zero and the total equals
the subtotal. -/
theorem create_invoice_pricing_spec (plan_price setup_fee_amount d : ℚ) :
    (create_invoice_pricing plan_price setup_fee_amount (some d)).setup_fee_discount
        = min (max d 0) setup_fee_amount ∧
    (create_invoice_pricing plan_price setup_fee_amount (some d)).setup_fee_net
        = setup_fee_amount
          - (create_invoice_pricing plan_price setup_fee_amount (some d)).setup_fee_discount ∧
    0 ≤ (create_invoice_pricing plan_price setup_fee_amount (some d)).setup_fee_net ∧
    (create_invoice_pricing plan_price setup_fee_amount (some d)).subtotal
        = plan_price + (create_invoice_pricing plan_price setup_fee_amount (some d)).setup_fee_net ∧
    (create_invoice_pricing plan_price setup_fee_amount (some d)).tax = 0 ∧
    (create_invoice_pricing plan_price setup_fee_amount (some d)).total
        = (create_invoice_pricing plan_price setup_fee_amount (some d)).subtotal := by
  have hc : (if (if d < 0 then 0 else d) > setup_fee_amount then setup_fee_amount
      else if d < 0 then 0 else d) = min (max d 0) setup_fee_amount := by
    rw [max_def, min_def]
    split_ifs <;> linarith
  simp only [create_invoice_pricing, Option.getD_some]
  refine ⟨hc, ?_, ?_, ?_, ?_, ?_⟩ <;> try trivial
  rw [hc]
  have hmin := min_le_right (max d 0) setup_fee_amount
  linarith

/-! ## Payment ledger — `record_payment`, src/app.py lines 1115–1144.

```python
@app.route("/leads/<int:lead_id>/payments", methods=["POST"])
def record_payment(lead_id: int):
    payload = request.get_json() or \x7b\x7d
    billing_month = payload.get("billing_month")
    amount = payload.get("amount")
    if not billing_month or not amount:
        return jsonify(...error...), 400
    execute("INSERT INTO lead_payments ... ON DUPLICATE KEY UPDATE
             amount=VALUES(amount), paid_on=VALUES(paid_on),
             payment_method=VALUES(payment_method), note=VALUES(note)", ...)
```

The `lead_payments` table (src/app.py lines 210–223) has
`UNIQUE KEY lead_month_unique (lead_id, billing_month)`, so the
`INSERT ... ON DUPLICATE KEY UPDATE` statement is an upsert keyed by
`(lead_id, billing_month)`: it overwrites `amount`, `paid_on`,
`payment_method` and `note` of an existing row with that key, and inserts a
fresh row otherwise.  The store is modelled as a list of rows in insertion
order; `invoice_id` is kept to record that the upsert never touches it. -/

/-- A scalar JSON value, as delivered by `request.get_json()`.  An absent
key and an explicit JSON `null` both surface as Python `None` and are both
modelled as `Option.none` at the field level. -/
inductive JsonValue where
  | num : ℚ → JsonValue
  | str : String → JsonValue
  | boolean : Bool → JsonValue
deriving DecidableEq

/-- Python truthiness of a scalar JSON value (`bool(v)`):
`0` and `0.0` are falsy, the empty string is falsy, `False` is falsy. -/
def pyTruthy : JsonValue → Bool
  | JsonValue.num q => decide (q ≠ 0)
  | JsonValue.str s => decide (s ≠ "")
  | JsonValue.boolean b => b

/-- Python truthiness of `payload.get(key)` (`None` for an absent key is
falsy). -/
def optTruthy : Option JsonValue → Bool
  | none => false
  | some v => pyTruthy v

/-- One row of the `lead_payments` table (columns touched by
`record_payment`; `invoice_id` is never written by it). -/
structure PaymentRow where
  lead_id : Nat
  invoice_id : Option Nat
  billing_month : JsonValue
  amount : JsonValue
  paid_on : Option JsonValue
  payment_method : Option JsonValue
  note : Option JsonValue
deriving DecidableEq

/-- The JSON body of a `POST /leads/<id>/payments` request (fields read by
`record_payment`). -/
structure PaymentPayload where
  billing_month : Option JsonValue
  amount : Option JsonValue
  paid_on : Option JsonValue
  payment_method : Option JsonValue
  note : Option JsonValue
deriving DecidableEq

inductive PaymentResponse where
  | validationError
  | ok
deriving DecidableEq

/-- Does row `r` carry the unique key `(lid, bm)` of `lead_month_unique`? -/
def keyMatch (r : PaymentRow) (lid : Nat) (bm : JsonValue) : Bool :=
  decide (r.lead_id = lid ∧ r.billing_month = bm)

/-- MySQL `INSERT ... ON DUPLICATE KEY UPDATE` against the
`lead_month_unique` unique key: an existing row with the same
`(lead_id, billing_month)` has `amount`, `paid_on`, `payment_method`,
`note` overwritten (its `id`/`invoice_id` untouched); otherwise the row is
appended. -/
def updRow (row r : PaymentRow) : PaymentRow :=
  if keyMatch r row.lead_id row.billing_month then
    { r with
      amount := row.amount
      paid_on := row.paid_on
      payment_method := row.payment_method
      note := row.note }
  else r

def upsertPayment (db : List PaymentRow) (row : PaymentRow) : List PaymentRow :=
  if db.any (fun r => keyMatch r row.lead_id row.billing_month) then
    db.map (updRow row)
  else db ++ [row]

/-- `record_payment` (src/app.py lines 1115–1144): validate that
`billing_month` and `amount` are truthy, then upsert. -/
def record_payment (lid : Nat) (p : PaymentPayload) (db : List PaymentRow) :
    List PaymentRow × PaymentResponse :=
  match p.billing_month, p.amount with
  | some bm, some amt =>
      if pyTruthy bm && pyTruthy amt then
        (upsertPayment db
          { lead_id := lid
            invoice_id := none
            billing_month := bm
            amount := amt
            paid_on := p.paid_on
            payment_method := p.payment_method
            note := p.note }, PaymentResponse.ok)
      else (db, PaymentResponse.validationError)
  | _, _ => (db, PaymentResponse.validationError)

/-- Number of stored rows carrying the key `(lid, bm)`. -/
def countKey (db : List PaymentRow) (lid : Nat) (bm : JsonValue) : Nat :=
  (db.filter (fun r => keyMatch r lid bm)).length

/-- The `lead_month_unique` invariant: at most one row per
`(lead_id, billing_month)` pair. -/
def atMostOnePerKey (db : List PaymentRow) : Prop :=
  ∀ lid bm, countKey db lid bm ≤ 1

/-- A sequence of `record_payment` requests applied in order. -/
def record_sequence (ops : List (Nat × PaymentPayload)) (db : List PaymentRow) :
    List PaymentRow :=
  ops.foldl (fun acc op => (record_payment op.1 op.2 acc).1) db

theorem keyMatch_updRow (row r : PaymentRow) (lid : Nat) (bm : JsonValue) :
    keyMatch (updRow row r) lid bm = keyMatch r lid bm := by
  unfold updRow
  split
  · rfl
  · rfl

theorem filter_map_updRow (db : List PaymentRow) (row : PaymentRow)
    (lid : Nat) (bm : JsonValue) :
    (db.map (updRow row)).filter (fun r => keyMatch r lid bm)
      = (db.filter (fun r => keyMatch r lid bm)).map (updRow row) := by
  rw [List.filter_map]
  congr 1
  apply List.filter_congr
  intro r _
  simp only [Function.comp_apply, keyMatch_updRow]

theorem filter_ins_nil (db : List PaymentRow) (row : PaymentRow)
    (hnone : ¬ (db.any (fun r => keyMatch r row.lead_id row.billing_month) = true)) :
    db.filter (fun r => keyMatch r row.lead_id row.billing_month) = [] := by
  rw [List.filter_eq_nil_iff]
  intro r hr hkr
  exact hnone (List.any_eq_true.mpr ⟨r, hr, hkr⟩)

theorem countKey_upsert (db : List PaymentRow) (row : PaymentRow)
    (lid : Nat) (bm : JsonValue) (hinv : atMostOnePerKey db) :
    countKey (upsertPayment db row) lid bm ≤ 1 := by
  unfold upsertPayment
  split
  · unfold countKey
    rw [filter_map_updRow, List.length_map]
    exact hinv lid bm
  · rename_i hnone
    unfold countKey
    rw [List.filter_append, List.length_append]
    have hdb := hinv lid bm
    unfold countKey at hdb
    by_cases hk : keyMatch row lid bm
    · have hkey : row.lead_id = lid ∧ row.billing_month = bm := by
        simpa [keyMatch] using hk
      have hz : db.filter (fun r => keyMatch r lid bm) = [] := by
        rw [← hkey.1, ← hkey.2]
        exact filter_ins_nil db row hnone
      rw [hz]
      simp [hk]
    · have hone : ([row].filter (fun r => keyMatch r lid bm)).length = 0 := by
        simp [List.filter, hk]
      omega


theorem mem_upsert (db : List PaymentRow) (row r : PaymentRow)
    (hr : r ∈ upsertPayment db row) : r ∈ db ∨ r.amount = row.amount := by
  unfold upsertPayment at hr
  split at hr
  · rw [List.mem_map] at hr
    obtain ⟨x, hx, hfx⟩ := hr
    unfold updRow at hfx
    by_cases hk : keyMatch x row.lead_id row.billing_month
    · right
      rw [if_pos hk] at hfx
      rw [← hfx]
    · left
      rw [if_neg hk] at hfx
      exact hfx ▸ hx
  · rw [List.mem_append, List.mem_singleton] at hr
    rcases hr with hr | hr
    · exact Or.inl hr
    · exact Or.inr (hr ▸ rfl)

theorem atMostOne_record (lid : Nat) (p : PaymentPayload) (db : List PaymentRow)
    (h : atMostOnePerKey db) : atMostOnePerKey (record_payment lid p db).1 := by
  unfold record_payment
  rcases hbm : p.billing_month with _ | bm
  · exact h
  · rcases hamt : p.amount with _ | amt
    · exact h
    · by_cases ht : pyTruthy bm && pyTruthy amt
      · simp only [ht, if_pos]
        intro l b
        exact countKey_upsert db _ l b h
      · simp only [ht, if_neg]
        exact h

theorem atMostOne_sequence (ops : List (Nat × PaymentPayload)) (db : List PaymentRow)
    (h : atMostOnePerKey db) : atMostOnePerKey (record_sequence ops db) := by
  induction ops generalizing db with
  | nil => exact h
  | cons op rest ih =>
    unfold record_sequence
    rw [List.foldl_cons]
    exact ih _ (atMostOne_record op.1 op.2 db h)

theorem keyMatch_self (row : PaymentRow) :
    keyMatch row row.lead_id row.billing_month = true := by
  simp [keyMatch]

theorem filter_upsert (db : List PaymentRow) (row : PaymentRow)
    (hinv : atMostOnePerKey db) :
    ((upsertPayment db row).filter
        (fun r => keyMatch r row.lead_id row.billing_month)).map
      (fun r => (r.amount, r.paid_on, r.payment_method, r.note))
    = [(row.amount, row.paid_on, row.payment_method, row.note)] := by
  unfold upsertPayment
  split
  · rename_i hex
    rw [List.any_eq_true] at hex
    obtain ⟨r0, hr0, hk0⟩ := hex
    rw [filter_map_updRow]
    have hle : (db.filter (fun r => keyMatch r row.lead_id row.billing_month)).length ≤ 1 :=
      hinv row.lead_id row.billing_month
    have hmem : r0 ∈ db.filter (fun r => keyMatch r row.lead_id row.billing_month) :=
      List.mem_filter.mpr ⟨hr0, hk0⟩
    have hones : ∃ a, db.filter (fun r => keyMatch r row.lead_id row.billing_month) = [a] := by
      rcases hfl : db.filter (fun r => keyMatch r row.lead_id row.billing_month) with _ | ⟨a, rest⟩
      · rw [hfl] at hmem
        exact absurd hmem (List.not_mem_nil r0)
      · rw [hfl] at hle
        simp only [List.length_cons] at hle
        have : rest = [] := List.eq_nil_of_length_eq_zero (by omega)
        exact ⟨a, by rw [this]⟩
    obtain ⟨a, ha⟩ := hones
    rw [ha]
    have hamem : a ∈ db.filter (fun r => keyMatch r row.lead_id row.billing_month) := by
      rw [ha]
      exact List.mem_singleton_self a
    have hak : keyMatch a row.lead_id row.billing_month = true :=
      (List.mem_filter.mp hamem).2
    simp [updRow, hak]
  · rename_i hnone
    rw [List.filter_append, filter_ins_nil db row hnone]
    simp [keyMatch_self]

/-- C2: recording a payment for a pair that already has a row overwrites the
mutable fields in place; every sequence of recordings keeps at most one row
per `(client, billing-month)` pair; recording 500 then 750 for
`(client 7, month 2025-11)` leaves exactly one row, with amount 750. -/
theorem record_payment_upsert_spec :
    (∀ (ops : List (Nat × PaymentPayload)) (db : List PaymentRow),
      atMostOnePerKey db → atMostOnePerKey (record_sequence ops db)) ∧
    (∀ (lid : Nat) (p : PaymentPayload) (db : List PaymentRow) (bm amt : JsonValue),
      atMostOnePerKey db → p.billing_month = some bm → p.amount = some amt →
      pyTruthy bm = true → pyTruthy amt = true →
      ((record_payment lid p db).1.filter (fun r => keyMatch r lid bm)).map
          (fun r => (r.amount, r.paid_on, r.payment_method, r.note))
        = [(amt, p.paid_on, p.payment_method, p.note)]) ∧
    record_sequence
        [(7, ⟨some (JsonValue.str "2025-11"), some (JsonValue.num 500), none, none, none⟩),
         (7, ⟨some (JsonValue.str "2025-11"), some (JsonValue.num 750), none, none, none⟩)] []
      = [{ lead_id := 7
           invoice_id := none
           billing_month := JsonValue.str "2025-11"
           amount := JsonValue.num 750
           paid_on := none
           payment_method := none
           note := none }] := by
  refine ⟨atMostOne_sequence, ?_, by decide⟩
  intro lid p db bm amt hinv hbm hamt htb hta
  unfold record_payment
  rw [hbm, hamt]
  simp only [htb, hta, Bool.and_self, if_pos]
  exact filter_upsert db
    { lead_id := lid
      invoice_id := none
      billing_month := bm
      amount := amt
      paid_on := p.paid_on
      payment_method := p.payment_method
      note := p.note } hinv

/-- Witness for C2 at a concrete recording sequence. -/
theorem record_payment_upsert_spec_witness :
    atMostOnePerKey (record_sequence
      [(7, ⟨some (JsonValue.str "2025-11"), some (JsonValue.num 500), none, none, none⟩),
       (7, ⟨some (JsonValue.str "2025-11"), some (JsonValue.num 750), none, none, none⟩)] []) :=
  record_payment_upsert_spec.1 _ [] (by intro lid bm; simp [countKey])

/-- C7: a payment request lacking the billing month or the amount is
rejected with the validation error and the stored payment state is
unchanged. -/
theorem record_payment_missing_field_rejected (lid : Nat) (p : PaymentPayload)
    (db : List PaymentRow) (h : p.billing_month = none ∨ p.amount = none) :
    record_payment lid p db = (db, PaymentResponse.validationError) := by
  unfold record_payment
  rcases hbm : p.billing_month with _ | bm
  · rfl
  · rcases hamt : p.amount with _ | amt
    · rfl
    · rcases h with h | h
      · rw [hbm] at h; exact absurd h (by simp)
      · rw [hamt] at h; exact absurd h (by simp)

/-- Witness for C7: a request with an amount but no billing month leaves an
empty store empty and yields the validation error. -/
theorem record_payment_missing_field_rejected_witness :
    record_payment 3 ⟨none, some (JsonValue.num 500), none, none, none⟩ []
      = ([], PaymentResponse.validationError) :=
  record_payment_missing_field_rejected 3 _ [] (Or.inl rfl)

/-- C10: a numeric-zero amount is treated like a missing amount by the
falsiness check and rejected with the same validation error and no write;
consequently a state with no zero-amount row never gains one. -/
theorem record_payment_zero_amount_rejected (lid : Nat) (p : PaymentPayload)
    (db : List PaymentRow) :
    (p.amount = some (JsonValue.num 0) →
      record_payment lid p db = (db, PaymentResponse.validationError)) ∧
    ((∀ r ∈ db, r.amount ≠ JsonValue.num 0) →
      ∀ r ∈ (record_payment lid p db).1, r.amount ≠ JsonValue.num 0) := by
  constructor
  · intro hz
    unfold record_payment
    rcases hbm : p.billing_month with _ | bm
    · rfl
    · rw [hz]
      have : pyTruthy (JsonValue.num 0) = false := by simp [pyTruthy]
      simp [this]
  · intro hclean
    unfold record_payment
    rcases hbm : p.billing_month with _ | bm
    · exact hclean
    · rcases hamt : p.amount with _ | amt
      · exact hclean
      · by_cases ht : pyTruthy bm && pyTruthy amt
        · simp only [ht, if_pos]
          intro r hr
          rcases mem_upsert db _ r hr with hmem | heq
          · exact hclean r hmem
          · intro hzero
            have hamt0 : amt = JsonValue.num 0 := by
              have hra : amt = r.amount := heq.symm
              rw [hra, hzero]
            have ht2 : pyTruthy amt = true := by
              rw [Bool.and_eq_true] at ht
              exact ht.2
            rw [hamt0] at ht2
            simp [pyTruthy] at ht2
        · simp only [ht, if_neg]
          exact hclean

/-- Witness for C10 at a concrete zero-amount request. -/
theorem record_payment_zero_amount_rejected_witness :
    record_payment 7 ⟨some (JsonValue.str "2025-11"), some (JsonValue.num 0), none, none, none⟩ []
      = ([], PaymentResponse.validationError) :=
  (record_payment_zero_amount_rejected 7 _ []).1 rfl

/-! ## Invoice numbering — `next_invoice_number`, src/app.py lines 1369–1378.

```python
def next_invoice_number() -> str:
    today = datetime.utcnow()
    prefix = today.strftime("INV%Y%m")
    seq_row = execute(
        "SELECT COUNT(*) FROM invoices WHERE invoice_number LIKE %s",
        (f"...prefix...%",),
        fetchone=True,
    )
    seq = (seq_row[0] if seq_row else 0) + 1
    return f"...prefix......seq:04d..."
```

The allocation time is modelled by its UTC year and month; the store by the
list of invoice numbers currently in the `invoices` table.  The SQL `LIKE`
pattern `prefix%` is modelled by a character-exact `LIKE` matcher
(`%` matches any run, `_` one character); the generated uppercase-and-digit
patterns contain no wildcard and are unaffected by collation case folding. -/

/-- Worker for the SQL `LIKE` matcher; the fuel argument only forces
structural recursion and is always sufficient at the call site. -/
def likeMatchGo : Nat → List Char → List Char → Bool
  | 0, _, _ => false
  | _ + 1, [], s => s.isEmpty
  | fuel + 1, p :: ps, s =>
      if p = '%' then
        likeMatchGo fuel ps s ||
          (match s with
           | [] => false
           | _ :: s2 => likeMatchGo fuel (p :: ps) s2)
      else
        if p = '_' then
          match s with
          | [] => false
          | _ :: s2 => likeMatchGo fuel ps s2
        else
          match s with
          | [] => false
          | c :: s2 => decide (p = c) && likeMatchGo fuel ps s2

/-- SQL `LIKE` pattern matching over characters. -/
def likeMatch (p s : List Char) : Bool :=
  likeMatchGo (p.length + s.length + 1) p s

/-- The month-scoped invoice prefix `strftime("INV%Y%m")` of a UTC instant:
`INV`, zero-padded 4-digit year, zero-padded 2-digit month. -/
def invoicePrefixStr (year month : Nat) : String :=
  "INV" ++ fmtNat 4 year ++ fmtNat 2 month

/-- `next_invoice_number` (src/app.py lines 1369–1378): count the stored
invoice numbers matching `LIKE prefix%` and append `count+1` zero-padded to
four digits. -/
def next_invoice_number (year month : Nat) (stored : List String) : String :=
  let pfx := invoicePrefixStr year month
  let seq := (stored.filter (fun s => likeMatch (pfx.data ++ ['%']) s.data)).length + 1
  pfx ++ fmtNat 4 seq

theorem likeMatchGo_percent (fuel : Nat) :
    ∀ s : List Char, 1 + s.length < fuel → likeMatchGo fuel ['%'] s = true := by
  induction fuel with
  | zero => intro s h; omega
  | succ g ih =>
    intro s h
    cases s with
    | nil =>
        obtain ⟨g2, rfl⟩ : ∃ g2, g = g2 + 1 := ⟨g - 1, by simp at h; omega⟩
        rfl
    | cons c s2 =>
        simp only [likeMatchGo, if_pos rfl]
        rw [ih s2 (by simp at h ⊢; omega)]
        simp

theorem likeMatchGo_free (fuel : Nat) :
    ∀ p s : List Char, (∀ c ∈ p, c ≠ '%' ∧ c ≠ '_') →
      p.length + s.length + 2 ≤ fuel →
      (likeMatchGo fuel (p ++ ['%']) s = true ↔ p <+: s) := by
  induction fuel with
  | zero => intro p s hw h; omega
  | succ g ih =>
    intro p s hw h
    cases p with
    | nil =>
        rw [List.nil_append]
        rw [likeMatchGo_percent (g + 1) s (by simp at h; omega)]
        simp
    | cons a p2 =>
        have ha := hw a (List.mem_cons_self a p2)
        cases s with
        | nil =>
            rw [List.cons_append]
            simp only [likeMatchGo, if_neg ha.1, if_neg ha.2]
            simp
        | cons c s2 =>
            rw [List.cons_append]
            simp only [likeMatchGo, if_neg ha.1, if_neg ha.2]
            rw [List.cons_prefix_cons]
            rw [← ih p2 s2 (fun x hx => hw x (List.mem_cons_of_mem a hx))
              (by simp at h ⊢; omega)]
            simp only [Bool.and_eq_true, decide_eq_true_eq]

theorem likeMatch_no_wildcard (p s : List Char)
    (hw : ∀ c ∈ p, c ≠ '%' ∧ c ≠ '_') :
    likeMatch (p ++ ['%']) s = true ↔ p <+: s := by
  unfold likeMatch
  exact likeMatchGo_free _ p s hw (by simp; omega)

theorem fmtNat_data_mem (w n : Nat) :
    ∀ c ∈ (fmtNat w n).data, c = '0' ∨ c ∈ digitCharList := by
  intro c hc
  have hdata : (fmtNat w n).data
      = List.replicate (w - (natDigits n).length) '0' ++ natDigits n := rfl
  rw [hdata] at hc
  rcases List.mem_append.mp hc with hc | hc
  · exact Or.inl (List.eq_of_mem_replicate hc)
  · exact Or.inr (natDigits_mem n c hc)

theorem invoicePrefixStr_wildcard_free (year month : Nat) :
    ∀ c ∈ (invoicePrefixStr year month).data, c ≠ '%' ∧ c ≠ '_' := by
  intro c hc
  have hdata : (invoicePrefixStr year month).data
      = "INV".data ++ ((fmtNat 4 year).data ++ (fmtNat 2 month).data) := by
    simp [invoicePrefixStr, String.data_append, List.append_assoc]
  rw [hdata] at hc
  have hINV : ∀ x ∈ "INV".data, x ≠ '%' ∧ x ≠ '_' := by decide
  have hdigit : ∀ x ∈ digitCharList, x ≠ '%' ∧ x ≠ '_' := by decide
  rcases List.mem_append.mp hc with hc | hc
  · exact hINV c hc
  · have hpad : c = '0' ∨ c ∈ digitCharList := by
      rcases List.mem_append.mp hc with hc | hc
      · exact fmtNat_data_mem 4 year c hc
      · exact fmtNat_data_mem 2 month c hc
    rcases hpad with hc0 | hcd
    · rw [hc0]
      decide
    · exact hdigit c hcd

theorem fmtNat_length (w n : Nat) (h : (natDigits n).length ≤ w) :
    (fmtNat w n).length = w := by
  show (List.replicate (w - (natDigits n).length) '0' ++ natDigits n).length = w
  rw [List.length_append, List.length_replicate]
  omega

/-- C3: the allocated invoice number is the month prefix `INV` + 4-digit
UTC year + 2-digit UTC month followed by `N+1` zero-padded to four digits,
where `N` is the number of stored invoice numbers whose text starts with
that prefix. -/
theorem next_invoice_number_spec (year month : Nat) (stored : List String) :
    next_invoice_number year month stored
      = invoicePrefixStr year month
        ++ fmtNat 4
            ((stored.filter
                (fun s => decide ((invoicePrefixStr year month).data <+: s.data))).length
              + 1) ∧
    (year < 10000 → month < 100 → (invoicePrefixStr year month).length = 9) := by
  constructor
  · have hpt : ∀ s : String,
        likeMatch ((invoicePrefixStr year month).data ++ ['%']) s.data
          = decide ((invoicePrefixStr year month).data <+: s.data) := by
      intro s
      by_cases hp : (invoicePrefixStr year month).data <+: s.data
      · rw [(likeMatch_no_wildcard _ _ (invoicePrefixStr_wildcard_free year month)).mpr hp]
        exact (decide_eq_true hp).symm
      · have hlm : likeMatch ((invoicePrefixStr year month).data ++ ['%']) s.data = false := by
          rw [← Bool.not_eq_true]
          intro hcon
          exact hp ((likeMatch_no_wildcard _ _
            (invoicePrefixStr_wildcard_free year month)).mp hcon)
        rw [hlm, eq_comm, decide_eq_false_iff_not]
        exact hp
    show invoicePrefixStr year month
        ++ fmtNat 4
            ((stored.filter
                (fun s => likeMatch ((invoicePrefixStr year month).data ++ ['%']) s.data)).length
              + 1) = _
    rw [List.filter_congr (fun s _ => hpt s)]
  · intro hy hm
    show ((("INV" ++ fmtNat 4 year) ++ fmtNat 2 month)).length = 9
    rw [String.length_append, String.length_append]
    rw [fmtNat_length 4 year (natDigits_length_le 4 year (by omega) (by omega)),
        fmtNat_length 2 month (natDigits_length_le 2 month (by omega) (by omega))]
    rfl

/-- Witness for C3: six stored invoices in UTC month 2025-11 make the next
number `INV2025110007`, and the month prefix has the 9-character shape. -/
theorem next_invoice_number_spec_witness :
    (invoicePrefixStr 2025 11).length = 9 ∧
    next_invoice_number 2025 11
        ["INV2025110001", "INV2025110002", "INV2025110003",
         "INV2025110004", "INV2025110005", "INV2025110006"]
      = "INV2025110007" := by
  constructor
  · exact (next_invoice_number_spec 2025 11 []).2 (by omega) (by omega)
  · rw [(next_invoice_number_spec 2025 11 _).1]
    decide

/-! ## Exact decimals versus binary floats — `parse_decimal`,
src/app.py lines 428–429, used on every monetary field by
`serialize_invoice_record`, lines 540–566.

```python
def parse_decimal(value: Any) -> float:
    return float(as_decimal(value))
```

`serialize_invoice_record` maps `parse_decimal` over `subtotal`, `tax`,
`total`, `setup_fee_amount`, `setup_fee_discount`, `setup_fee_net` and
`plan_price` before the record is sent over the wire, so every serialized
monetary value is a Python `float`, i.e. an IEEE-754 binary64 value.
Every finite binary64 value equals `m * 2^(-e)` for integers `m`, `e`, so
the set of values a `float` can hold is a subset of the dyadic rationals
modelled below (the 53-bit significand bound is dropped, which only makes
non-representability results stronger). -/

/-- An exact base-10 fixed-point decimal with two fractional digits. -/
def twoDigitDecimal (q : ℚ) : Prop := ∃ n : ℤ, q = n / 100

/-- The values a finite Python `float` (IEEE-754 binary64) can hold are
dyadic rationals; this superset drops the significand bound. -/
def floatRepresentable (q : ℚ) : Prop := ∃ (m : ℤ) (e : ℕ), q = m / 2 ^ e

theorem one_tenth_not_floatRepresentable : ¬ floatRepresentable (1 / 10) := by
  rintro ⟨m, e, hm⟩
  have h2 : ((2 : ℚ) ^ e) ≠ 0 := by positivity
  have hq : (2 : ℚ) ^ e = 10 * m := by
    field_simp at hm
    linarith
  have hz : (2 : ℤ) ^ e = 10 * m := by exact_mod_cast hq
  have h5 : (5 : ℤ) ∣ 2 ^ e := ⟨2 * m, by linarith⟩
  have hp5 : Prime (5 : ℤ) := Nat.prime_iff_prime_int.mp (by norm_num)
  have := hp5.dvd_of_dvd_pow h5
  norm_num at this

/-- C4 counterexample: 0.10 is a two-digit decimal monetary value, yet no
binary floating-point value equals it, so the serialized invoice output
(which passes every monetary field through `parse_decimal`, a `float`)
cannot carry such values as exact base-10 fixed-point decimals. -/
theorem serialized_floats_counterexample :
    twoDigitDecimal (1 / 10) ∧ ¬ floatRepresentable (1 / 10) :=
  ⟨⟨10, by norm_num⟩, one_tenth_not_floatRepresentable⟩

/-- C4 amended: the pricing computation itself is exact decimal
arithmetic, but `serialize_invoice_record` converts every monetary field
to a binary floating-point number via `parse_decimal`; any map into
float-representable values must move the two-digit decimal 0.10, so the
wire format does not carry exact base-10 fixed-point decimals. -/
theorem pricing_exact_but_serialization_binary :
    (∀ (p f : ℚ) (din : Option ℚ),
      (create_invoice_pricing p f din).total
          = (create_invoice_pricing p f din).subtotal ∧
      (create_invoice_pricing p f din).subtotal
          = p + (create_invoice_pricing p f din).setup_fee_net ∧
      (create_invoice_pricing p f din).tax = 0) ∧
    (∀ g : ℚ → ℚ, (∀ q, floatRepresentable (g q)) → g (1 / 10) ≠ 1 / 10) := by
  constructor
  · intro p f din
    exact ⟨rfl, rfl, rfl⟩
  · intro g hg heq
    exact one_tenth_not_floatRepresentable (heq ▸ hg (1 / 10))

/-- Witness for C4 (amended): the constant-zero map has float-representable
values everywhere and indeed does not fix 0.10. -/
theorem pricing_exact_but_serialization_binary_witness : (0 : ℚ) ≠ 1 / 10 := by
  exact pricing_exact_but_serialization_binary.2 (fun _ => 0)
    (fun q => ⟨0, 0, by norm_num⟩)

/-! ## Document renderer, part 1 — timestamps, text wrapping, filename.

`generate_invoice_pdf` (src/app.py lines 569–576):

```python
generated_dt = to_ist_datetime(invoice.get("generated_at")) or datetime.now(IST)
timestamp_str = generated_dt.strftime("%Y%m%dT%H%M%S")
pdf_filename = f"INV_.timestamp_str._.invoice.get(lead_id..pdf"
```

`to_ist_datetime` on the naive MySQL `DATETIME`/`TIMESTAMP` value stored in
`generated_at` attaches the fixed civil timezone without shifting the civil
fields, so it is modelled as the identity on the stored civil timestamp;
the `or datetime.now(IST)` fallback is modelled by an explicit `now`
parameter used only when `generated_at` is absent. -/

/-- A civil (wall-clock) timestamp in the fixed display timezone. -/
structure CivilDateTime where
  year : Nat
  month : Nat
  day : Nat
  hour : Nat
  minute : Nat
  second : Nat
deriving DecidableEq

/-- `strftime("%Y%m%dT%H%M%S")`. -/
def strftimeCompact (d : CivilDateTime) : String :=
  fmtNat 4 d.year ++ fmtNat 2 d.month ++ fmtNat 2 d.day ++ "T"
    ++ fmtNat 2 d.hour ++ fmtNat 2 d.minute ++ fmtNat 2 d.second

/-- `strftime("%b")` month abbreviation (months are 1–12 at call sites). -/
def monthAbbrev : Nat → String
  | 1 => "Jan" | 2 => "Feb" | 3 => "Mar" | 4 => "Apr"
  | 5 => "May" | 6 => "Jun" | 7 => "Jul" | 8 => "Aug"
  | 9 => "Sep" | 10 => "Oct" | 11 => "Nov" | 12 => "Dec"
  | _ => ""

/-- `format_invoice_date` (src/app.py lines 443–445): `strftime("%d %b %Y")`
on the civil timestamp. -/
def format_invoice_date (d : CivilDateTime) : String :=
  fmtNat 2 d.day ++ " " ++ monthAbbrev d.month ++ " " ++ fmtNat 4 d.year

/-- Worker splitting a character stream into whitespace-separated words
(`cur` holds the current word reversed). -/
def splitWordsGo : List Char → List Char → List String
  | [], cur => if cur = [] then [] else [String.mk cur.reverse]
  | c :: cs, cur =>
      if c.isWhitespace then
        if cur = [] then splitWordsGo cs []
        else String.mk cur.reverse :: splitWordsGo cs []
      else splitWordsGo cs (c :: cur)

/-- Whitespace word splitting, as `textwrap` does before packing. -/
def splitWords (s : String) : List String := splitWordsGo s.data []

/-- Greedy line packing of words into lines of at most `width` characters
(the `textwrap.wrap` filling rule; breaking of single words longer than the
width is not modelled — no call site wraps such words). -/
def wrapGo (width : Nat) : List String → String → List String
  | [], cur => if cur = "" then [] else [cur]
  | w :: ws, cur =>
      if cur = "" then wrapGo width ws w
      else if cur.length + 1 + w.length ≤ width then wrapGo width ws (cur ++ " " ++ w)
      else cur :: wrapGo width ws w

/-- `textwrap.wrap(text, width)` model: split into words, pack greedily. -/
def pyWrap (s : String) (width : Nat) : List String := wrapGo width (splitWords s) ""

/-- `wrap_text` (src/app.py lines 448–451):

```python
def wrap_text(text, width=70):
    if not text:
        return ["NA"]
    return textwrap.wrap(text, width) or ["NA"]
```
-/
def wrap_text (t : Option String) (width : Nat) : List String :=
  match t with
  | none => ["NA"]
  | some s =>
      if s = "" then ["NA"]
      else
        match pyWrap s width with
        | [] => ["NA"]
        | l :: ls => l :: ls

/-- Python `value or default` on an optional string (`None` and the empty
string both fall back). -/
def pyOrS (v : Option String) (dflt : String) : String :=
  match v with
  | none => dflt
  | some s => if s = "" then dflt else s

/-- Python `a or b` on two optional strings. -/
def pyOrOpt (a b : Option String) : Option String :=
  match a with
  | none => b
  | some s => if s = "" then b else some s

/-- Python f-string interpolation of an optional string (`None` prints as
the word `None`). -/
def pyStr (v : Option String) : String :=
  match v with
  | none => "None"
  | some s => s

/-- One invoice row as passed to `generate_invoice_pdf`: the re-read
`invoices` row joined with its lead and plan (`fetch_invoice_details`,
src/app.py lines 524–537).  Monetary columns are MySQL `DECIMAL(10,2)`
values, modelled as exact integer numbers of cents. -/
structure InvoiceRecord where
  lead_id : Nat
  invoice_number : String
  generated_at : Option CivilDateTime
  lead_name : Option String
  lead_email : Option String
  lead_phone : Option String
  lead_address : Option String
  brand_name : Option String
  plan_name : Option String
  plan_price : Int
  setup_fee_amount : Int
  setup_fee_discount : Int
  subtotal : Int
  tax : Int
  total : Int
deriving DecidableEq

/-- The rendered document filename of `generate_invoice_pdf`
(src/app.py lines 573–575): `INV_<timestamp>_<leadId>.pdf`, where the
timestamp is the stored `generated_at` civil timestamp, falling back to
the render-time clock only when `generated_at` is absent. -/
def invoice_pdf_filename (inv : InvoiceRecord) (now : CivilDateTime) : String :=
  "INV_" ++ strftimeCompact (inv.generated_at.getD now) ++ "_"
    ++ String.mk (natDigits inv.lead_id) ++ ".pdf"

/-- C5 counterexample: a persisted invoice (stored generation timestamp
2025-11-07 01:24:34, client 7) rendered at two different times yields the
same filename both times — the name is not derived from a fresh render
timestamp, so re-rendering does not write two distinct files. -/
theorem invoice_pdf_filename_counterexample :
    invoice_pdf_filename
        { lead_id := 7
          invoice_number := "INV2025110001"
          generated_at := some ⟨2025, 11, 7, 1, 24, 34⟩
          lead_name := none
          lead_email := none
          lead_phone := none
          lead_address := none
          brand_name := none
          plan_name := none
          plan_price := 0
          setup_fee_amount := 0
          setup_fee_discount := 0
          subtotal := 0
          tax := 0
          total := 0 } ⟨2025, 11, 7, 2, 0, 0⟩
      = invoice_pdf_filename
        { lead_id := 7
          invoice_number := "INV2025110001"
          generated_at := some ⟨2025, 11, 7, 1, 24, 34⟩
          lead_name := none
          lead_email := none
          lead_phone := none
          lead_address := none
          brand_name := none
          plan_name := none
          plan_price := 0
          setup_fee_amount := 0
          setup_fee_discount := 0
          subtotal := 0
          tax := 0
          total := 0 } ⟨2025, 11, 8, 9, 30, 0⟩ ∧
    invoice_pdf_filename
        { lead_id := 7
          invoice_number := "INV2025110001"
          generated_at := some ⟨2025, 11, 7, 1, 24, 34⟩
          lead_name := none
          lead_email := none
          lead_phone := none
          lead_address := none
          brand_name := none
          plan_name := none
          plan_price := 0
          setup_fee_amount := 0
          setup_fee_discount := 0
          subtotal := 0
          tax := 0
          total := 0 } ⟨2025, 11, 7, 2, 0, 0⟩
      = "INV_20251107T012434_7.pdf" ∧
    (⟨2025, 11, 7, 2, 0, 0⟩ : CivilDateTime) ≠ ⟨2025, 11, 8, 9, 30, 0⟩ := by
  refine ⟨?_, ?_, ?_⟩ <;> decide

/-- C5 amended: the filename is `INV_<timestamp>_<clientId>.pdf` where the
timestamp is the invoice's stored generation time; for a persisted invoice
(`generated_at` present) it is therefore independent of the render time,
so re-rendering overwrites the same path instead of accumulating files,
and only an invoice lacking `generated_at` uses the render-time clock. -/
theorem invoice_pdf_filename_spec (inv : InvoiceRecord) (now1 now2 : CivilDateTime) :
    (∀ d, inv.generated_at = some d →
      invoice_pdf_filename inv now1
          = "INV_" ++ strftimeCompact d ++ "_"
            ++ String.mk (natDigits inv.lead_id) ++ ".pdf" ∧
      invoice_pdf_filename inv now1 = invoice_pdf_filename inv now2) ∧
    (inv.generated_at = none →
      invoice_pdf_filename inv now1
        = "INV_" ++ strftimeCompact now1 ++ "_"
          ++ String.mk (natDigits inv.lead_id) ++ ".pdf") := by
  constructor
  · intro d hd
    unfold invoice_pdf_filename
    rw [hd]
    exact ⟨rfl, rfl⟩
  · intro hn
    unfold invoice_pdf_filename
    rw [hn]
    rfl

/-- Witness for C5 (amended) at the concrete persisted invoice of the
counterexample. -/
theorem invoice_pdf_filename_spec_witness :
    invoice_pdf_filename
        { lead_id := 7
          invoice_number := "INV2025110001"
          generated_at := some ⟨2025, 11, 7, 1, 24, 34⟩
          lead_name := none
          lead_email := none
          lead_phone := none
          lead_address := none
          brand_name := none
          plan_name := none
          plan_price := 0
          setup_fee_amount := 0
          setup_fee_discount := 0
          subtotal := 0
          tax := 0
          total := 0 } ⟨2025, 11, 7, 2, 0, 0⟩
      = "INV_" ++ strftimeCompact ⟨2025, 11, 7, 1, 24, 34⟩ ++ "_"
        ++ String.mk (natDigits 7) ++ ".pdf" :=
  ((invoice_pdf_filename_spec _ ⟨2025, 11, 7, 2, 0, 0⟩ ⟨2025, 11, 8, 9, 30, 0⟩).1
    ⟨2025, 11, 7, 1, 24, 34⟩ rfl).1

/-! ## Document renderer, part 2 — drawing operations,
`generate_invoice_pdf` (src/app.py lines 569–761).

The reportlab canvas is modelled as the list of drawing operations issued,
in order; coordinates are exact rationals in points.  The outcomes of the
two asset fetches (`get_logo_image` for the header logo and for the QR
image) are Boolean parameters: `get_logo_image` returns `None` on any
fetch/load failure and the drawing code only branches on image presence.
`table.wrap` computes the table height inside reportlab; it enters the
layout only as a vertical offset and is passed in as a parameter. -/

inductive PdfOp where
  | text : ℚ → ℚ → String → PdfOp
  | image : ℚ → ℚ → ℚ → ℚ → PdfOp
  | line : ℚ → ℚ → ℚ → ℚ → PdfOp
  | table : ℚ → ℚ → List (List String) → PdfOp
deriving DecidableEq

/-- One reportlab millimetre in points (`mm = 72 / 25.4`). -/
def mmUnit : ℚ := 360 / 127

/-- A4 page width (`210 * mm`). -/
def pageWidth : ℚ := 210 * mmUnit

/-- A4 page height (`297 * mm`). -/
def pageHeight : ℚ := 297 * mmUnit

/-- The fixed page margin (`20 * mm`). -/
def pageMargin : ℚ := 20 * mmUnit

/-- Groups a reversed digit list in threes, inserting `,` separators
(the grouping of CPython `"{:,.2f}"` formatting). -/
def group3 : List Char → List Char
  | d1 :: d2 :: d3 :: d4 :: rest => d1 :: d2 :: d3 :: ',' :: group3 (d4 :: rest)
  | l => l

/-- CPython `"{:,.2f}"` formatting of an exact cents value: sign, integer
digits grouped in threes by commas, dot, two fraction digits (exact on
`DECIMAL(10,2)` values, so no rounding is involved). -/
def fmtMoney (cents : Int) : String :=
  (if cents < 0 then "-" else "")
    ++ String.mk (group3 (natDigits (cents.natAbs / 100)).reverse).reverse
    ++ "." ++ fmtNat 2 (cents.natAbs % 100)

/-- The cost-breakdown table rows (src/app.py lines 677–689): header, plan
line, setup-fee line, a discount line only when the applied discount is
positive (shown with a leading minus), subtotal line, grand-total line. -/
def cost_rows (inv : InvoiceRecord) : List (List String) :=
  [["Description", "Amount (INR)"],
   ["Plan - " ++ pyStr inv.plan_name, fmtMoney inv.plan_price],
   ["One-time Setup Fee", fmtMoney inv.setup_fee_amount]]
  ++ (if 0 < inv.setup_fee_discount then
        [["One-time Discount", "-" ++ fmtMoney inv.setup_fee_discount]]
      else [])
  ++ [["Subtotal", fmtMoney inv.subtotal],
      ["Grand Total", fmtMoney inv.total]]

/-- The wrapped business address drawn under the title (src/app.py
lines 611–614). -/
def businessAddress : String :=
  "Shri Ram Nagar, 8-B, opp. Dhanwantri Hospital & Research Centre, near New Sanganer Road, Mansarovar, Jaipur, Rajasthan 302020"

/-- The contact line appended to the address block (src/app.py line 615,
`DEFAULT_CONTACT_NUMBER` with its default). -/
def contactLine : String := "+91 8307802643"

/-- The four default payment-instruction lines (src/app.py lines 713–718,
with the default environment values of src/app.py lines 67–72). -/
def default_payment_lines : List String :=
  ["Bank Name: STATE BANK OF INDIA",
   "Account Holder: Suman Kumari",
   "Account Number: 42213259870",
   "UPI: 8307802643@axl"]

/-- Payment-instruction lines (src/app.py lines 720–724): a truthy
`INVOICE_PAYMENT_LINES` environment value is split on `|`, trimmed and
blank entries dropped; otherwise the defaults are used. -/
def payment_lines (raw : Option String) : List String :=
  match raw with
  | none => default_payment_lines
  | some s =>
      if s = "" then default_payment_lines
      else ((s.splitOn "|").map String.trim).filter (fun l => l ≠ "")

/-- A run of lines drawn at `x`, stepping the cursor down by `dy` after
each line (the address and payment-lines loops); returns the issued
operations and the final cursor. -/
def drawLines (x y dy : ℚ) : List String → List PdfOp × ℚ
  | [] => ([], y)
  | l :: ls =>
      let rest := drawLines x (y - dy) dy ls
      (PdfOp.text x y l :: rest.1, rest.2)

/-- Continuation lines of a wrapped field value in `draw_field`: the cursor
first steps down a row, then the line is drawn. -/
def restLineOps (x y : ℚ) : List String → List PdfOp × ℚ
  | [] => ([], y)
  | l :: ls =>
      let rest := restLineOps x (y - 16) ls
      (PdfOp.text x (y - 16) l :: rest.1, rest.2)

/-- `draw_field` (src/app.py lines 631–642): bold `label:` at `x`, the
word-wrapped value at `x + 60` flowing down by the row height, returning
the next field baseline. -/
def drawField (label value : String) (x y : ℚ) : List PdfOp × ℚ :=
  match wrap_text (some value) 70 with
  | [] => ([PdfOp.text x y (label ++ ":")], y - 16)
  | l :: ls =>
      let rest := restLineOps (x + 60) y ls
      (PdfOp.text x y (label ++ ":") :: PdfOp.text (x + 60) y l :: rest.1, rest.2 - 16)

/-- The left-column field loop (src/app.py lines 644–653): each absent
value falls back to the literal `NA` before wrapping. -/
def drawFields (x : ℚ) : List (String × Option String) → ℚ → List PdfOp × ℚ
  | [], y => ([], y)
  | (label, v) :: fs, y =>
      let fd := drawField label (pyOrS v "NA") x y
      let rest := drawFields x fs fd.2
      (fd.1 ++ rest.1, rest.2)

/-- The right-column metadata loop (src/app.py lines 655–666):
`label:` at `x`, `str(value or "NA")` at `x + 80`, fixed row step. -/
def drawRightFields (x : ℚ) : List (String × Option String) → ℚ → List PdfOp × ℚ
  | [], y => ([], y)
  | (label, v) :: fs, y =>
      let rest := drawRightFields x fs (y - 16)
      (PdfOp.text x y (label ++ ":")
        :: PdfOp.text (x + 80) y (pyOrS v "NA") :: rest.1, rest.2)

/-- The left-column client fields (src/app.py lines 645–651). -/
def left_fields (inv : InvoiceRecord) : List (String × Option String) :=
  [("Client", pyOrOpt inv.lead_name inv.lead_phone),
   ("Brand", inv.brand_name),
   ("Email", inv.lead_email),
   ("Phone", inv.lead_phone),
   ("Address", inv.lead_address)]

/-- The right-column invoice metadata (src/app.py lines 656–660). -/
def right_fields (inv : InvoiceRecord) (gdt : CivilDateTime) :
    List (String × Option String) :=
  [("Invoice #", some inv.invoice_number),
   ("Invoice Date", some (format_invoice_date gdt)),
   ("Plan", inv.plan_name)]

/-- The full drawing-operation stream of `generate_invoice_pdf`
(src/app.py lines 578–754), in issue order.  `logoLoaded`/`qrLoaded` give
the outcomes of the two `get_logo_image` fetches, `tableHeight` the height
computed by `table.wrap`, `paymentLinesRaw` the
`INVOICE_PAYMENT_LINES` environment value. -/
def generate_invoice_pdf_ops (inv : InvoiceRecord) (now : CivilDateTime)
    (logoLoaded qrLoaded : Bool) (tableHeight : ℚ)
    (paymentLinesRaw : Option String) : List PdfOp :=
  let gdt := inv.generated_at.getD now
  let headerTop := pageHeight - pageMargin
  let logoSize : ℚ := 32 * mmUnit
  let textX := if logoLoaded then pageMargin + logoSize + 10 else pageMargin
  let y0 := if logoLoaded then headerTop - 8 else headerTop - 12
  let headerOps :=
    (if logoLoaded then
      [PdfOp.image pageMargin (headerTop - logoSize + 35) logoSize logoSize]
     else [])
      ++ [PdfOp.text textX y0 "Neighshop Global"]
  let addressLines := wrap_text (some businessAddress) 80 ++ [contactLine]
  let addr := drawLines textX (y0 - 18) 11 addressLines
  let yPos := addr.2 - 6
  let ruleOps := [PdfOp.line pageMargin yPos (pageWidth - pageMargin) yPos]
  let yPos2 := yPos - 16
  let rightColumnX := pageWidth / 2 + 16 * mmUnit
  let lefts := drawFields pageMargin (left_fields inv) yPos2
  let rights := drawRightFields rightColumnX (right_fields inv gdt) yPos2
  let yPos3 := min lefts.2 rights.2 - 20
  let tableOps := [PdfOp.table pageMargin (yPos3 - tableHeight) (cost_rows inv)]
  let yPos4 := yPos3 - tableHeight - 36
  let payHeaderOps := [PdfOp.text pageMargin yPos4 "Payment Details"]
  let pays := drawLines pageMargin (yPos4 - 16) 14 (payment_lines paymentLinesRaw)
  let qrOps :=
    if qrLoaded then
      [PdfOp.image pageMargin (pays.2 - 100 - 8) 100 100,
       PdfOp.text pageMargin (pays.2 - 100 - 8 - 6) "Scan UPI: 8307802643@axl"]
    else []
  let yPos6 := if qrLoaded then pays.2 - 100 - 8 - 20 else pays.2
  headerOps ++ addr.1 ++ ruleOps ++ lefts.1 ++ rights.1 ++ tableOps
    ++ payHeaderOps ++ pays.1 ++ qrOps
    ++ [PdfOp.text pageMargin (yPos6 - 8) "Thank you for choosing Neighshop Global."]

/-- The text contents drawn by an operation stream, in order. -/
def textsOf (ops : List PdfOp) : List String :=
  ops.filterMap (fun op =>
    match op with
    | PdfOp.text _ _ s => some s
    | _ => none)

/-- The tables drawn by an operation stream, in order. -/
def tablesOf (ops : List PdfOp) : List (List (List String)) :=
  ops.filterMap (fun op =>
    match op with
    | PdfOp.table _ _ rows => some rows
    | _ => none)

theorem textsOf_nil : textsOf [] = [] := rfl

@[simp] theorem textsOf_cons_text (x y : ℚ) (s : String) (ops : List PdfOp) :
    textsOf (PdfOp.text x y s :: ops) = s :: textsOf ops := rfl

@[simp] theorem textsOf_cons_image (x y w h : ℚ) (ops : List PdfOp) :
    textsOf (PdfOp.image x y w h :: ops) = textsOf ops := rfl

@[simp] theorem textsOf_cons_line (a b c d : ℚ) (ops : List PdfOp) :
    textsOf (PdfOp.line a b c d :: ops) = textsOf ops := rfl

@[simp] theorem textsOf_cons_table (x y : ℚ) (rows : List (List String))
    (ops : List PdfOp) : textsOf (PdfOp.table x y rows :: ops) = textsOf ops := rfl

@[simp] theorem textsOf_append (a b : List PdfOp) :
    textsOf (a ++ b) = textsOf a ++ textsOf b := by
  unfold textsOf
  rw [List.filterMap_append]

@[simp] theorem tablesOf_cons_text (x y : ℚ) (s : String) (ops : List PdfOp) :
    tablesOf (PdfOp.text x y s :: ops) = tablesOf ops := rfl

@[simp] theorem tablesOf_cons_image (x y w h : ℚ) (ops : List PdfOp) :
    tablesOf (PdfOp.image x y w h :: ops) = tablesOf ops := rfl

@[simp] theorem tablesOf_cons_line (a b c d : ℚ) (ops : List PdfOp) :
    tablesOf (PdfOp.line a b c d :: ops) = tablesOf ops := rfl

@[simp] theorem tablesOf_cons_table (x y : ℚ) (rows : List (List String))
    (ops : List PdfOp) :
    tablesOf (PdfOp.table x y rows :: ops) = rows :: tablesOf ops := rfl

@[simp] theorem tablesOf_append (a b : List PdfOp) :
    tablesOf (a ++ b) = tablesOf a ++ tablesOf b := by
  unfold tablesOf
  rw [List.filterMap_append]

@[simp] theorem textsOf_drawLines (x y dy : ℚ) (ls : List String) :
    textsOf (drawLines x y dy ls).1 = ls := by
  induction ls generalizing y with
  | nil => rfl
  | cons l ls ih =>
    show textsOf (PdfOp.text x y l :: (drawLines x (y - dy) dy ls).1) = l :: ls
    rw [textsOf_cons_text, ih]

@[simp] theorem tablesOf_drawLines (x y dy : ℚ) (ls : List String) :
    tablesOf (drawLines x y dy ls).1 = [] := by
  induction ls generalizing y with
  | nil => rfl
  | cons l ls ih =>
    show tablesOf (PdfOp.text x y l :: (drawLines x (y - dy) dy ls).1) = []
    rw [tablesOf_cons_text, ih]

theorem textsOf_restLineOps (x y : ℚ) (ls : List String) :
    textsOf (restLineOps x y ls).1 = ls := by
  induction ls generalizing y with
  | nil => rfl
  | cons l ls ih =>
    show textsOf (PdfOp.text x (y - 16) l :: (restLineOps x (y - 16) ls).1) = l :: ls
    rw [textsOf_cons_text, ih]

theorem tablesOf_restLineOps (x y : ℚ) (ls : List String) :
    tablesOf (restLineOps x y ls).1 = [] := by
  induction ls generalizing y with
  | nil => rfl
  | cons l ls ih =>
    show tablesOf (PdfOp.text x (y - 16) l :: (restLineOps x (y - 16) ls).1) = []
    rw [tablesOf_cons_text, ih]

theorem wrap_text_ne_nil (t : Option String) (w : Nat) : wrap_text t w ≠ [] := by
  unfold wrap_text
  rcases t with _ | s
  · simp
  · show ¬ (if s = "" then ["NA"]
      else match pyWrap s w with
           | [] => ["NA"]
           | l :: ls => l :: ls) = []
    by_cases hs : s = ""
    · rw [if_pos hs]
      simp
    · rw [if_neg hs]
      rcases hp : pyWrap s w with _ | ⟨l, ls⟩ <;> simp

@[simp] theorem textsOf_drawField (label value : String) (x y : ℚ) :
    textsOf (drawField label value x y).1
      = (label ++ ":") :: wrap_text (some value) 70 := by
  unfold drawField
  rcases hw : wrap_text (some value) 70 with _ | ⟨l, ls⟩
  · exact absurd hw (wrap_text_ne_nil _ _)
  · show textsOf (PdfOp.text x y (label ++ ":")
        :: PdfOp.text (x + 60) y l :: (restLineOps (x + 60) y ls).1) = _
    rw [textsOf_cons_text, textsOf_cons_text, textsOf_restLineOps]

theorem tablesOf_drawField (label value : String) (x y : ℚ) :
    tablesOf (drawField label value x y).1 = [] := by
  unfold drawField
  rcases hw : wrap_text (some value) 70 with _ | ⟨l, ls⟩
  · exact absurd hw (wrap_text_ne_nil _ _)
  · show tablesOf (PdfOp.text x y (label ++ ":")
        :: PdfOp.text (x + 60) y l :: (restLineOps (x + 60) y ls).1) = _
    rw [tablesOf_cons_text, tablesOf_cons_text, tablesOf_restLineOps]

@[simp] theorem textsOf_drawFields (x : ℚ) (fs : List (String × Option String)) (y : ℚ) :
    textsOf (drawFields x fs y).1
      = (fs.map (fun f => (f.1 ++ ":") :: wrap_text (some (pyOrS f.2 "NA")) 70)).flatten := by
  induction fs generalizing y with
  | nil => rfl
  | cons f fs2 ih =>
    rcases f with ⟨fl, fv⟩
    show textsOf ((drawField fl (pyOrS fv "NA") x y).1
        ++ (drawFields x fs2 (drawField fl (pyOrS fv "NA") x y).2).1) = _
    rw [textsOf_append, textsOf_drawField, ih]
    simp [List.flatten]

@[simp] theorem tablesOf_drawFields (x : ℚ) (fs : List (String × Option String)) (y : ℚ) :
    tablesOf (drawFields x fs y).1 = [] := by
  induction fs generalizing y with
  | nil => rfl
  | cons f fs2 ih =>
    rcases f with ⟨fl, fv⟩
    show tablesOf ((drawField fl (pyOrS fv "NA") x y).1
        ++ (drawFields x fs2 (drawField fl (pyOrS fv "NA") x y).2).1) = _
    rw [tablesOf_append, tablesOf_drawField, ih]
    rfl

@[simp] theorem textsOf_drawRightFields (x : ℚ) (fs : List (String × Option String)) (y : ℚ) :
    textsOf (drawRightFields x fs y).1
      = (fs.map (fun f => [f.1 ++ ":", pyOrS f.2 "NA"])).flatten := by
  induction fs generalizing y with
  | nil => rfl
  | cons f fs2 ih =>
    rcases f with ⟨fl, fv⟩
    show textsOf (PdfOp.text x y (fl ++ ":") :: PdfOp.text (x + 80) y (pyOrS fv "NA")
        :: (drawRightFields x fs2 (y - 16)).1) = _
    rw [textsOf_cons_text, textsOf_cons_text, ih]
    simp [List.flatten]

@[simp] theorem tablesOf_drawRightFields (x : ℚ) (fs : List (String × Option String)) (y : ℚ) :
    tablesOf (drawRightFields x fs y).1 = [] := by
  induction fs generalizing y with
  | nil => rfl
  | cons f fs2 ih =>
    rcases f with ⟨fl, fv⟩
    show tablesOf (PdfOp.text x y (fl ++ ":") :: PdfOp.text (x + 80) y (pyOrS fv "NA")
        :: (drawRightFields x fs2 (y - 16)).1) = _
    rw [tablesOf_cons_text, tablesOf_cons_text, ih]

/-- C8: with the primary logo fetch failed, the rendered operation stream
carries exactly the same text elements and the same cost table as the
successful-fetch render (generation always completes), and the header text
is drawn at the margin x-position instead of to the right of the image. -/
theorem generate_invoice_pdf_logo_fallback (inv : InvoiceRecord)
    (now : CivilDateTime) (qrLoaded : Bool) (tableHeight : ℚ)
    (paymentLinesRaw : Option String) :
    textsOf (generate_invoice_pdf_ops inv now false qrLoaded tableHeight paymentLinesRaw)
      = textsOf (generate_invoice_pdf_ops inv now true qrLoaded tableHeight paymentLinesRaw) ∧
    tablesOf (generate_invoice_pdf_ops inv now false qrLoaded tableHeight paymentLinesRaw)
      = tablesOf (generate_invoice_pdf_ops inv now true qrLoaded tableHeight paymentLinesRaw) ∧
    (generate_invoice_pdf_ops inv now false qrLoaded tableHeight paymentLinesRaw).head?
      = some (PdfOp.text pageMargin (pageHeight - pageMargin - 12) "Neighshop Global") := by
  refine ⟨?_, ?_, ?_⟩
  · cases qrLoaded <;>
      simp [generate_invoice_pdf_ops]
  · cases qrLoaded <;>
      simp [generate_invoice_pdf_ops]
  · simp [generate_invoice_pdf_ops]

/-- The text contents drawn at a given x-position, in order. -/
def textsAt (x0 : ℚ) (ops : List PdfOp) : List String :=
  ops.filterMap (fun op =>
    match op with
    | PdfOp.text x _ s => if x = x0 then some s else none
    | _ => none)

@[simp] theorem textsAt_append (x0 : ℚ) (a b : List PdfOp) :
    textsAt x0 (a ++ b) = textsAt x0 a ++ textsAt x0 b := by
  unfold textsAt
  rw [List.filterMap_append]

theorem mem_textsAt (x0 : ℚ) (s : String) (ops : List PdfOp) (y : ℚ)
    (h : PdfOp.text x0 y s ∈ ops) : s ∈ textsAt x0 ops := by
  unfold textsAt
  rw [List.mem_filterMap]
  exact ⟨PdfOp.text x0 y s, h, by simp⟩

theorem drawFields_first_line_mem (x : ℚ) (fs : List (String × Option String))
    (y : ℚ) (label : String) (v : Option String) (hmem : (label, v) ∈ fs) :
    ∃ ypos, PdfOp.text (x + 60) ypos ((wrap_text (some (pyOrS v "NA")) 70).headD "")
      ∈ (drawFields x fs y).1 := by
  induction fs generalizing y with
  | nil => cases hmem
  | cons f fs2 ih =>
    rcases f with ⟨fl, fv⟩
    rcases List.mem_cons.mp hmem with heq | htail
    · obtain ⟨h1, h2⟩ := Prod.mk.inj heq
      subst h1
      subst h2
      refine ⟨y, ?_⟩
      show _ ∈ (drawField label (pyOrS v "NA") x y).1
        ++ (drawFields x fs2 (drawField label (pyOrS v "NA") x y).2).1
      apply List.mem_append_left
      unfold drawField
      rcases hw : wrap_text (some (pyOrS v "NA")) 70 with _ | ⟨l, ls⟩
      · exact absurd hw (wrap_text_ne_nil _ _)
      · show PdfOp.text (x + 60) y ((l :: ls).headD "")
          ∈ PdfOp.text x y (label ++ ":")
            :: PdfOp.text (x + 60) y l :: (restLineOps (x + 60) y ls).1
        simp [List.headD]
    · obtain ⟨ypos, hy⟩ := ih (drawField fl (pyOrS fv "NA") x y).2 htail
      refine ⟨ypos, ?_⟩
      show _ ∈ (drawField fl (pyOrS fv "NA") x y).1
        ++ (drawFields x fs2 (drawField fl (pyOrS fv "NA") x y).2).1
      exact List.mem_append_right _ hy

theorem NA_mem_textsAt_drawFields (x y : ℚ) (fs : List (String × Option String))
    (label : String) (hmem : (label, (none : Option String)) ∈ fs) :
    "NA" ∈ textsAt (x + 60) (drawFields x fs y).1 := by
  obtain ⟨ypos, hy⟩ := drawFields_first_line_mem x fs y label none hmem
  have hNA : (wrap_text (some (pyOrS (none : Option String) "NA")) 70).headD "" = "NA" := by
    decide
  rw [hNA] at hy
  exact mem_textsAt _ _ _ ypos hy

theorem textsAt_mem_generate (inv : InvoiceRecord) (now : CivilDateTime)
    (logoLoaded qrLoaded : Bool) (tableHeight : ℚ) (paymentLinesRaw : Option String)
    (x0 : ℚ) (s : String)
    (h : ∀ y : ℚ, s ∈ textsAt x0 (drawFields pageMargin (left_fields inv) y).1) :
    s ∈ textsAt x0
      (generate_invoice_pdf_ops inv now logoLoaded qrLoaded tableHeight paymentLinesRaw) := by
  simp only [generate_invoice_pdf_ops, textsAt_append, List.mem_append]
  exact Or.inl (Or.inl (Or.inl (Or.inl (Or.inl (Or.inl (Or.inr (h _)))))))

/-- C9: a left-column client field whose value is absent is rendered as the
literal `NA` (wrapping the fallback gives exactly the line `NA`, which is
not an empty string); in particular a client with no email has `NA` drawn
in the value column of the rendered document. -/
theorem left_field_absent_renders_NA (inv : InvoiceRecord) (now : CivilDateTime)
    (logoLoaded qrLoaded : Bool) (tableHeight : ℚ) (paymentLinesRaw : Option String) :
    (∀ v : Option String, v = none →
      wrap_text (some (pyOrS v "NA")) 70 = ["NA"] ∧ "NA" ≠ "") ∧
    (inv.lead_email = none →
      "NA" ∈ textsAt (pageMargin + 60)
        (generate_invoice_pdf_ops inv now logoLoaded qrLoaded tableHeight paymentLinesRaw)) := by
  constructor
  · rintro v rfl
    exact ⟨by decide, by decide⟩
  · intro he
    apply textsAt_mem_generate
    intro y
    apply NA_mem_textsAt_drawFields pageMargin y (left_fields inv) "Email"
    simp [left_fields, he]

/-- Witness for C9: a concrete client with no email gets `NA` drawn in the
left value column. -/
theorem left_field_absent_renders_NA_witness :
    "NA" ∈ textsAt (pageMargin + 60)
      (generate_invoice_pdf_ops
        { lead_id := 7
          invoice_number := "INV2025110001"
          generated_at := some ⟨2025, 11, 7, 1, 24, 34⟩
          lead_name := some "Asha"
          lead_email := none
          lead_phone := some "9999999999"
          lead_address := none
          brand_name := none
          plan_name := some "Gold"
          plan_price := 499900
          setup_fee_amount := 300000
          setup_fee_discount := 50000
          subtotal := 749900
          tax := 0
          total := 749900 } ⟨2025, 11, 7, 2, 0, 0⟩ false false 0 none) :=
  (left_field_absent_renders_NA _ _ false false 0 none).2 rfl

theorem plan_row_ne (s : String) : "Plan - " ++ s ≠ "One-time Discount" := by
  intro h
  have h2 : ("Plan - " ++ s).data = "One-time Discount".data := congrArg String.data h
  rw [String.data_append] at h2
  have h3 : ("Plan - ").data = ['P', 'l', 'a', 'n', ' ', '-', ' '] := rfl
  have h4 : "One-time Discount".data
      = ['O', 'n', 'e', '-', 't', 'i', 'm', 'e', ' ',
         'D', 'i', 's', 'c', 'o', 'u', 'n', 't'] := rfl
  rw [h3, h4] at h2
  simp at h2

/-- C6: the discount line appears in the cost table exactly when the
applied discount is positive, shown with a leading minus; the full row
order (header, plan, setup fee, optional discount, subtotal, grand total)
is fixed. -/
theorem cost_rows_discount_spec (inv : InvoiceRecord) :
    (["One-time Discount", "-" ++ fmtMoney inv.setup_fee_discount] ∈ cost_rows inv
        ↔ 0 < inv.setup_fee_discount) ∧
    (0 < inv.setup_fee_discount →
      cost_rows inv
        = [["Description", "Amount (INR)"],
           ["Plan - " ++ pyStr inv.plan_name, fmtMoney inv.plan_price],
           ["One-time Setup Fee", fmtMoney inv.setup_fee_amount],
           ["One-time Discount", "-" ++ fmtMoney inv.setup_fee_discount],
           ["Subtotal", fmtMoney inv.subtotal],
           ["Grand Total", fmtMoney inv.total]]) ∧
    (¬ 0 < inv.setup_fee_discount →
      cost_rows inv
        = [["Description", "Amount (INR)"],
           ["Plan - " ++ pyStr inv.plan_name, fmtMoney inv.plan_price],
           ["One-time Setup Fee", fmtMoney inv.setup_fee_amount],
           ["Subtotal", fmtMoney inv.subtotal],
           ["Grand Total", fmtMoney inv.total]]) := by
  by_cases hd : 0 < inv.setup_fee_discount
  · have hrows : cost_rows inv
        = [["Description", "Amount (INR)"],
           ["Plan - " ++ pyStr inv.plan_name, fmtMoney inv.plan_price],
           ["One-time Setup Fee", fmtMoney inv.setup_fee_amount],
           ["One-time Discount", "-" ++ fmtMoney inv.setup_fee_discount],
           ["Subtotal", fmtMoney inv.subtotal],
           ["Grand Total", fmtMoney inv.total]] := by
      unfold cost_rows
      rw [if_pos hd]
      rfl
    refine ⟨⟨fun _ => hd, fun _ => ?_⟩, fun _ => hrows, fun hc => absurd hd hc⟩
    rw [hrows]
    simp
  · have hrows : cost_rows inv
        = [["Description", "Amount (INR)"],
           ["Plan - " ++ pyStr inv.plan_name, fmtMoney inv.plan_price],
           ["One-time Setup Fee", fmtMoney inv.setup_fee_amount],
           ["Subtotal", fmtMoney inv.subtotal],
           ["Grand Total", fmtMoney inv.total]] := by
      unfold cost_rows
      rw [if_neg hd]
      rfl
    refine ⟨⟨fun hmem => ?_, fun h => absurd h hd⟩, fun h => absurd h hd, fun _ => hrows⟩
    rw [hrows] at hmem
    simp only [List.mem_cons, List.not_mem_nil, or_false] at hmem
    rcases hmem with h | h | h | h | h
    · exact absurd (List.head_eq_of_cons_eq h) (by decide)
    · exact ((plan_row_ne (pyStr inv.plan_name)) (List.head_eq_of_cons_eq h).symm).elim
    · exact absurd (List.head_eq_of_cons_eq h) (by decide)
    · exact absurd (List.head_eq_of_cons_eq h) (by decide)
    · exact absurd (List.head_eq_of_cons_eq h) (by decide)

/-- Witness for C6: a concrete invoice with a positive discount has the
discount row in its cost table. -/
theorem cost_rows_discount_spec_witness :
    ["One-time Discount", "-" ++ fmtMoney (50000 : Int)] ∈ cost_rows
      { lead_id := 7
        invoice_number := "INV2025110001"
        generated_at := some ⟨2025, 11, 7, 1, 24, 34⟩
        lead_name := some "Asha"
        lead_email := none
        lead_phone := some "9999999999"
        lead_address := none
        brand_name := none
        plan_name := some "Gold"
        plan_price := 499900
        setup_fee_amount := 300000
        setup_fee_discount := 50000
        subtotal := 749900
        tax := 0
        total := 749900 } :=
  (cost_rows_discount_spec _).1.mpr (by decide)

end Servicemate
